import Mathlib

/-!
Shallow embedding of the real-time triage engine of `src/app.py`
(routes `/init-triage-session`, `/triage-patient`, `/triage-batch-stream`,
`/department-status`, `/queue-priority`, `/update-department-capacity`,
helper `save_patient_record`, class `TriagePatient`).

Modelling conventions:
* Python floats are modelled as `ℚ` (all constants involved — 0.1, 2.5, 30,
  the base scores — are exact in both representations, and `round(x, 1)` is
  the identity on the multiples of 0.5 produced by the wait-time formula,
  so display rounding is omitted).
* Wall-clock instants are `ℚ` seconds since the epoch.
* Python `dict`s are association lists with first-match lookup and
  replace-first-or-append update, which reproduces CPython's insertion-order
  and key-overwrite semantics.
* A JSON value handed to `float()` / `int()` either is a number, is `null`,
  or is a value on which the conversion raises (`JVal.jbad`); `int()`
  truncates numeric values toward zero exactly as CPython does.
* The external ML classifier (`risk_model` / `dept_model`) is an external
  collaborator: its output for a request is an oracle input
  `Option (risk_level × primary_department)`, `none` meaning the model call
  raises.
* External persistence (`save_patient_record`) can only succeed or fail;
  the two boolean oracles say whether the CSV append and the MongoDB insert
  succeed at the I/O level.
-/

/-- A JSON value as seen by the numeric conversions in the route handlers:
a number, JSON `null`, or a value on which `float()` / `int()` raises. -/
inductive JVal where
  | jnum (q : ℚ)
  | jnull
  | jbad
  deriving DecidableEq, Repr

/-- CPython `int()` truncates toward zero. -/
def truncQ (q : ℚ) : Int :=
  if 0 ≤ q then ⌊q⌋ else ⌈q⌉

/-- `float(v)`: numbers pass through, everything else raises (`none`). -/
def py_float : JVal → Option ℚ
  | .jnum q => some q
  | .jnull => none
  | .jbad => none

/-- `int(v)`: numbers are truncated toward zero, everything else raises. -/
def py_int : JVal → Option Int
  | .jnum q => some (truncQ q)
  | .jnull => none
  | .jbad => none

/-- `d.get(k)` on a Python dict: first (only) binding of the key. -/
def dget {α : Type} (l : List (String × α)) (k : String) : Option α :=
  match l with
  | [] => none
  | (k', v) :: t => if k' = k then some v else dget t k

/-- `d[k] = v` on a Python dict: overwrite the existing binding in place,
or append a new binding at the end. -/
def dset {α : Type} (l : List (String × α)) (k : String) (v : α) : List (String × α) :=
  match l with
  | [] => [(k, v)]
  | (k', v') :: t => if k' = k then (k, v) :: t else (k', v') :: dset t k v

/-- `k in d` on a Python dict. -/
def dmem {α : Type} (l : List (String × α)) (k : String) : Bool :=
  (dget l k).isSome

/-- `DEFAULT_DEPARTMENT_CAPACITY` from `src/app.py`. -/
def DEFAULT_DEPARTMENT_CAPACITY : List (String × Int) :=
  [("Cardiology", 10), ("Pulmonology", 12), ("Emergency", 15), ("Neurology", 8),
   ("General Surgery", 10), ("General Medicine", 20), ("Orthopedics", 8), ("ENT", 6),
   ("Dermatology", 5), ("Gastroenterology", 7), ("Vascular Surgery", 5),
   ("Infectious Disease", 8)]

/-- `risk_scores.get(risk_level, 10)` inside `TriagePatient._calculate_priority`. -/
def risk_scores (r : String) : ℚ :=
  if r = "high" then 100 else if r = "medium" then 50 else if r = "low" then 10 else 10

/-- `TriagePatient._calculate_priority`, evaluated with `datetime.now() = now`:
base score for the risk level plus `min(age_minutes * 0.1, 30)`. -/
def calculate_priority (risk : String) (arrival now : ℚ) : ℚ :=
  risk_scores risk + min ((now - arrival) / 60 * (1 / 10)) 30

/-- The `TriagePatient` object of `src/app.py`.  `priority_score` is the value
`_calculate_priority` returned at construction time and is stored on the
object; `queue_position` is set to `None` in `__init__` and never updated. -/
structure TriagePatientRec where
  patient_id : String
  risk_level : String
  department : String
  arrival_time : ℚ
  priority_score : ℚ
  queue_position : Option Nat
  deriving DecidableEq, Repr

/-- `TriagePatient(patient_id, risk_level, department)` constructed at wall
clock `now` (so `arrival_time = now` and the stored score carries no wait
bonus beyond `min(0, 30) = 0`). -/
def TriagePatientRec.mk_at (pid risk dept : String) (now : ℚ) : TriagePatientRec :=
  { patient_id := pid, risk_level := risk, department := dept, arrival_time := now,
    priority_score := calculate_priority risk now now, queue_position := none }

/-- The module-level mutable state of the Phase-2 triage engine:
`DEPARTMENT_QUEUES`, `PATIENT_REGISTRY`, `DEPARTMENT_CAPACITY`,
`TRIAGE_SESSION_ID`.  The session id string
`SESSION_%Y%m%d_%H%M%S` is determined by — and, inside the representable
range, injective in — the whole wall-clock second, so it is modelled by
that integer second. -/
structure TriageState where
  department_queues : List (String × List TriagePatientRec)
  patient_registry : List (String × TriagePatientRec)
  department_capacity : List (String × Int)
  session_id : Option Int
  deriving DecidableEq, Repr

/-- The state right after `/init-triage-session` at wall clock `t`, for a
given capacity table: one empty queue per capacity key, empty registry. -/
def fresh_state (caps : List (String × Int)) (t : ℚ) : TriageState :=
  { department_queues := caps.map (fun c => (c.1, ([] : List TriagePatientRec))),
    patient_registry := [],
    department_capacity := caps,
    session_id := some ⌊t⌋ }

/-- `save_patient_record` from `src/app.py`.  The whole body is wrapped in
`try/except` returning `False`, so it never raises; a MongoDB insert error is
caught by the inner `except`, only logged, and the function still returns
`True`.  (The function may also remap the `patient_id` column inside the CSV
when it collides with an existing row; that rewrite is confined to the CSV
record and never touches the in-memory queues or registry.) -/
def save_patient_record (csv_ok : Bool) (_mongo_ok : Bool) : Bool :=
  if csv_ok then true else false

/-- The fold performed by `min(alternative_depts, key=alternative_depts.get)`:
scan the dict in insertion order, keeping the first key that attains the
minimal queue length (Python `min` keeps the earlier item on ties). -/
def min_load_loop (best : String × Nat) :
    List (String × List TriagePatientRec) → String × Nat
  | [] => best
  | (d, q) :: rest =>
      if q.length < best.2 then min_load_loop (d, q.length) rest
      else min_load_loop best rest

/-- `min(alternative_depts, key=alternative_depts.get)`; `none` models the
`ValueError` Python raises on an empty dict. -/
def min_load_dept (qs : List (String × List TriagePatientRec)) : Option String :=
  match qs with
  | [] => none
  | (d, q) :: rest => some (min_load_loop (d, q.length) rest).1

/-- The load-balancing block of `triage_patient` / `triage_batch_stream`:
keep the primary department while
`len(DEPARTMENT_QUEUES.get(primary, [])) < DEPARTMENT_CAPACITY.get(primary, 10)`,
otherwise take the known department with the smallest current queue. -/
def load_balance (st : TriageState) (primary : String) : String :=
  let qlen : Int := ((dget st.department_queues primary).getD []).length
  let cap : Int := (dget st.department_capacity primary).getD 10
  if qlen ≥ cap then (min_load_dept st.department_queues).getD primary
  else primary

/-- One admission request as the route handlers see it after JSON decoding:
the resolved patient id (the handler substitutes a timestamp-derived id when
the field is missing), the seven raw vitals fields (`none` = absent from the
JSON body, which `data.get(col, 0)` turns into `0`), and the oracle for the
external classifier collaborator. -/
structure PatientInput where
  patient_id : String
  age : Option JVal
  blood_pressure_systolic : Option JVal
  blood_pressure_diastolic : Option JVal
  heart_rate : Option JVal
  temperature : Option JVal
  oxygen_saturation : Option JVal
  pain_level : Option JVal
  classifier : Option (String × String)
  deriving DecidableEq, Repr

/-- `float(data.get(col, 0))` for one field of the single-admission route. -/
def get_float (v : Option JVal) : Option ℚ :=
  match v with
  | none => some 0
  | some j => py_float j

/-- `int(data.get('pain_level', 0))`. -/
def get_int (v : Option JVal) : Option Int :=
  match v with
  | none => some 0
  | some j => py_int j

/-- The feature-extraction block of `triage_patient`: six `float()` casts and
one `int()` cast, the first failing cast raising out of the handler. -/
def extract_features_single (inp : PatientInput) : Option (List ℚ) := do
  let age ← get_float inp.age
  let bps ← get_float inp.blood_pressure_systolic
  let bpd ← get_float inp.blood_pressure_diastolic
  let hr ← get_float inp.heart_rate
  let temp ← get_float inp.temperature
  let ox ← get_float inp.oxygen_saturation
  let pain ← get_int inp.pain_level
  pure [age, bps, bpd, hr, temp, ox, (pain : ℚ)]

/-- The feature-extraction comprehension of `triage_batch_stream`:
`{col: float(patient.get(col, 0)) for col in feature_cols}` — note that the
batch route casts `pain_level` with `float()`, not `int()`. -/
def extract_features_batch (inp : PatientInput) : Option (List ℚ) := do
  let age ← get_float inp.age
  let bps ← get_float inp.blood_pressure_systolic
  let bpd ← get_float inp.blood_pressure_diastolic
  let hr ← get_float inp.heart_rate
  let temp ← get_float inp.temperature
  let ox ← get_float inp.oxygen_saturation
  let pain ← get_float inp.pain_level
  pure [age, bps, bpd, hr, temp, ox, pain]

/-- The JSON body `triage_patient` returns on success. -/
structure TriageResult where
  patient_id : String
  risk_level : String
  assigned_department : String
  primary_department : String
  load_balanced : Bool
  queue_position : Nat
  estimated_wait_time_minutes : ℚ
  deriving DecidableEq, Repr

/-- One entry of the `results` array of `triage_batch_stream`. -/
structure BatchResult where
  patient_id : String
  risk_level : String
  assigned_department : String
  queue_position : Nat
  estimated_wait_time_minutes : ℚ
  deriving DecidableEq, Repr

/-- The classification / load-balancing / registration block that appears
verbatim in both `triage_patient` and `triage_batch_stream`: ask the external
classifier, pick the target department, append the new `TriagePatient` to
that department's queue, overwrite `PATIENT_REGISTRY[patient_id]`, fire the
persistence call (whose boolean outcome is discarded), and build the
response.  A missing queue key for the assigned department is the `KeyError`
Python would raise on `DEPARTMENT_QUEUES[assigned_dept]`, caught by the
route's `except` with no state mutated. -/
def classify_and_register (st : TriageState) (pid : String)
    (cls : Option (String × String)) (now : ℚ) (csv_ok mongo_ok : Bool) :
    TriageState × Except String TriageResult :=
  match cls with
  | none => (st, .error "classifier error")
  | some (risk_level, primary_dept) =>
    let assigned := load_balance st primary_dept
    match dget st.department_queues assigned with
    | none => (st, .error "KeyError")
    | some q =>
      let p := TriagePatientRec.mk_at pid risk_level assigned now
      let st2 : TriageState :=
        { st with
          department_queues := dset st.department_queues assigned (q ++ [p]),
          patient_registry := dset st.patient_registry pid p }
      let _saved := save_patient_record csv_ok mongo_ok
      let queue_size := q.length + 1
      (st2, .ok
        { patient_id := pid, risk_level := risk_level,
          assigned_department := assigned, primary_department := primary_dept,
          load_balanced := assigned ≠ primary_dept,
          queue_position := queue_size,
          estimated_wait_time_minutes := (queue_size : ℚ) * (5 / 2) })

/-- The `/triage-patient` route: extract features (any failing cast raises
before any state is touched), then classify and register. -/
def triage_patient (st : TriageState) (inp : PatientInput) (now : ℚ)
    (csv_ok mongo_ok : Bool) : TriageState × Except String TriageResult :=
  match extract_features_single inp with
  | none => (st, .error "ValueError")
  | some _features =>
      classify_and_register st inp.patient_id inp.classifier now csv_ok mongo_ok

/-- One iteration of the `for patient in patients` loop of
`triage_batch_stream` (batch feature extraction, then the shared
registration block, then the reduced per-entry result row). -/
def batch_one (st : TriageState) (inp : PatientInput) (now : ℚ)
    (csv_ok mongo_ok : Bool) : TriageState × Except String BatchResult :=
  match extract_features_batch inp with
  | none => (st, .error "ValueError")
  | some _features =>
    match classify_and_register st inp.patient_id inp.classifier now csv_ok mongo_ok with
    | (st2, .error e) => (st2, .error e)
    | (st2, .ok r) =>
      (st2, .ok
        { patient_id := r.patient_id, risk_level := r.risk_level,
          assigned_department := r.assigned_department,
          queue_position := r.queue_position,
          estimated_wait_time_minutes := r.estimated_wait_time_minutes })

/-- The `/triage-batch-stream` route.  The loop body is NOT wrapped in a
per-entry `try/except`: the first exception propagates to the route-level
handler, which discards the `results` accumulated so far and answers with a
single error — while the state mutations of the earlier iterations remain. -/
def triage_batch_stream (st : TriageState) (inps : List PatientInput) (now : ℚ)
    (csv_ok mongo_ok : Bool) : TriageState × Except String (List BatchResult) :=
  match inps with
  | [] => (st, .ok [])
  | inp :: rest =>
    match batch_one st inp now csv_ok mongo_ok with
    | (st1, .error e) => (st1, .error e)
    | (st1, .ok r) =>
      match triage_batch_stream st1 rest now csv_ok mongo_ok with
      | (st2, .ok rs) => (st2, .ok (r :: rs))
      | (st2, .error e) => (st2, .error e)

/-- The `/init-triage-session` route: mint a session id from the wall clock
(one-second granularity), rebuild one empty queue per capacity key, clear the
registry. -/
def init_triage_session (st : TriageState) (now : ℚ) : TriageState × Int :=
  let sid := ⌊now⌋
  ({ department_queues :=
       st.department_capacity.map (fun c => (c.1, ([] : List TriagePatientRec))),
     patient_registry := [],
     department_capacity := st.department_capacity,
     session_id := some sid }, sid)

/-- The per-department record of the `/department-status` response (the
fields the claims are about; `utilization_percentage`, the status tier and
the warning string are presentation derived from these numbers). -/
structure DeptStatus where
  current_patients : Nat
  capacity : Int
  high_risk_count : Nat
  medium_risk_count : Nat
  low_risk_count : Nat
  estimated_wait_time_minutes : ℚ
  deriving DecidableEq, Repr

/-- The `/department-status` route: one record per department in queue order,
plus `total_patients_in_system = len(PATIENT_REGISTRY)`. -/
def department_status (st : TriageState) : List (String × DeptStatus) × Nat :=
  (st.department_queues.map (fun dq =>
    (dq.1,
      { current_patients := dq.2.length,
        capacity := (dget st.department_capacity dq.1).getD 10,
        high_risk_count := (dq.2.filter (fun p => p.risk_level = "high")).length,
        medium_risk_count := (dq.2.filter (fun p => p.risk_level = "medium")).length,
        low_risk_count := (dq.2.filter (fun p => p.risk_level = "low")).length,
        estimated_wait_time_minutes := (dq.2.length : ℚ) * (5 / 2) })),
   st.patient_registry.length)

/-- The `/update-department-capacity` route, acting on the
`DEPARTMENT_CAPACITY` dict.  `department` is `none` when the JSON field is
absent (`data.get` returns `None`); the handler first rejects a falsy
department or a `None` capacity, then runs `capacity = int(capacity)` —
which TRUNCATES numeric values — inside a `try` that turns a conversion
error or a non-positive result into the invalid-capacity answer, then checks
membership, and only then mutates, returning the old and new values. -/
def update_department_capacity (caps : List (String × Int))
    (department : Option String) (capacity : Option JVal) :
    List (String × Int) × Except String (Int × Int) :=
  match department, capacity with
  | some d, some c =>
    if d = "" then (caps, .error "Department and capacity are required")
    else
      match py_int c with
      | none => (caps, .error "Capacity must be a positive integer")
      | some n =>
        if n ≤ 0 then (caps, .error "Capacity must be a positive integer")
        else
          match dget caps d with
          | none => (caps, .error "Department not found")
          | some old => (dset caps d n, .ok (old, n))
  | _, _ => (caps, .error "Department and capacity are required")

/-- Stable descending insertion step for Python's `sorted(key, reverse=True)`:
the element being inserted comes EARLIER in the input than everything already
placed, so on a tie it stays in front (Timsort is stable, and `reverse=True`
does not disturb stability). -/
def ordered_insert_desc {α : Type} (key : α → ℚ) (x : α) : List α → List α
  | [] => [x]
  | y :: t => if key y ≤ key x then x :: y :: t else y :: ordered_insert_desc key x t

/-- `sorted(l, key=key, reverse=True)`: the unique stable descending order. -/
def sort_desc {α : Type} (key : α → ℚ) : List α → List α
  | [] => []
  | x :: t => ordered_insert_desc key x (sort_desc key t)

/-- One row of the `prioritized_queue` array of `/queue-priority`:
`position = idx + 1`, and both `priority_score` and `wait_time_minutes` are
recomputed from the current clock (`p._calculate_priority()` is called
afresh; the stored field is not read). -/
structure QueueEntry where
  position : Nat
  patient_id : String
  risk_level : String
  priority_score : ℚ
  wait_time_minutes : ℚ
  arrival_time : ℚ
  deriving DecidableEq, Repr

/-- The `for idx, patient in enumerate(prioritized_queue)` loop building the
response rows, with `idx` starting at `i`. -/
def build_rows (now : ℚ) : Nat → List TriagePatientRec → List QueueEntry
  | _, [] => []
  | i, p :: t =>
      { position := i + 1, patient_id := p.patient_id, risk_level := p.risk_level,
        priority_score := calculate_priority p.risk_level p.arrival_time now,
        wait_time_minutes := (now - p.arrival_time) / 60,
        arrival_time := p.arrival_time } :: build_rows now (i + 1) t

/-- The JSON body `/queue-priority` returns on success. -/
structure QueueResult where
  department : String
  category_filter : String
  prioritized_queue : List QueueEntry
  total_in_queue : Nat
  filtered_count : Nat
  deriving DecidableEq, Repr

/-- Python `str.lower()` on one character (ASCII range, which covers every
risk label and department name in this system). -/
def py_lower_char (c : Char) : Char :=
  if 'A' ≤ c ∧ c ≤ 'Z' then Char.ofNat (c.toNat + 32) else c

/-- Python `str.lower()`. -/
def py_lower (s : String) : String := String.mk (s.data.map py_lower_char)

/-- The category-filter block of `/queue-priority`: `all` and unrecognized
category strings leave the queue unfiltered; a risk label filters by
(lower-cased) risk level; a known department name filters by the stored
`department` field. -/
def category_filter_fn (st : TriageState) (category : String)
    (queue : List TriagePatientRec) : List TriagePatientRec :=
  if category = "all" then queue
  else if py_lower category = "high" ∨ py_lower category = "medium" ∨
      py_lower category = "low" then
    queue.filter (fun p => py_lower p.risk_level = py_lower category)
  else if dmem st.department_queues category then
    queue.filter (fun p => p.department = category)
  else queue

/-- The `/queue-priority` route: reject an unknown department, filter the
queue by risk level (case-insensitive) or by known department name, sort by
the score recomputed at request time, descending and stable, and enumerate
the rows. -/
def queue_priority (st : TriageState) (department category : String) (now : ℚ) :
    Except String QueueResult :=
  match dget st.department_queues department with
  | none => .error "Invalid department"
  | some queue =>
    let prioritized :=
      sort_desc (fun p => calculate_priority p.risk_level p.arrival_time now)
        (category_filter_fn st category queue)
    .ok { department := department, category_filter := category,
          prioritized_queue := build_rows now 0 prioritized,
          total_in_queue := queue.length,
          filtered_count := prioritized.length }

/-- One mutating request against the engine between two observation points:
a single admission or a batch admission (each carrying the wall clock and the
persistence oracles of that request). -/
inductive TriageOp where
  | single (inp : PatientInput) (now : ℚ) (csv_ok mongo_ok : Bool)
  | batch (inps : List PatientInput) (now : ℚ) (csv_ok mongo_ok : Bool)

/-- The state after serving one request. -/
def run_op (st : TriageState) : TriageOp → TriageState
  | .single inp now c m => (triage_patient st inp now c m).1
  | .batch inps now c m => (triage_batch_stream st inps now c m).1

/-- The state after serving a sequence of requests in order. -/
def run_ops (st : TriageState) : List TriageOp → TriageState
  | [] => st
  | op :: rest => run_ops (run_op st op) rest

/-- The patient ids carried by one request. -/
def op_pids : TriageOp → List String
  | .single inp _ _ _ => [inp.patient_id]
  | .batch inps _ _ _ => inps.map (fun i => i.patient_id)

/-- The patient ids carried by a request sequence, in order. -/
def ops_pids (ops : List TriageOp) : List String :=
  match ops with
  | [] => []
  | op :: rest => op_pids op ++ ops_pids rest

/-- Every entry held in some department queue, in queue order. -/
def all_queued (st : TriageState) : List TriagePatientRec :=
  st.department_queues.foldr (fun dq acc => dq.2 ++ acc) []

/-- The patient ids of all queued entries. -/
def queued_ids (st : TriageState) : List String :=
  (all_queued st).map (fun p => p.patient_id)

/-- The keys of `PATIENT_REGISTRY`. -/
def registry_ids (st : TriageState) : List String :=
  st.patient_registry.map (fun e => e.1)

/-- `sum(len(queue) for queue in DEPARTMENT_QUEUES.values())`. -/
def queue_size_sum (st : TriageState) : Nat :=
  (st.department_queues.map (fun dq => dq.2.length)).sum

/-- States the engine can actually be in: a freshly initialized session,
followed by any number of single admissions, batch admissions, session
resets and capacity updates. -/
inductive Reachable : TriageState → Prop where
  | init (caps : List (String × Int)) (t : ℚ) : Reachable (fresh_state caps t)
  | step_single {st : TriageState} (inp : PatientInput) (now : ℚ) (c m : Bool) :
      Reachable st → Reachable (triage_patient st inp now c m).1
  | step_batch {st : TriageState} (inps : List PatientInput) (now : ℚ) (c m : Bool) :
      Reachable st → Reachable (triage_batch_stream st inps now c m).1
  | step_reset {st : TriageState} (now : ℚ) :
      Reachable st → Reachable (init_triage_session st now).1
  | step_capacity {st : TriageState} (d : Option String) (c : Option JVal) :
      Reachable st →
      Reachable { st with
        department_capacity := (update_department_capacity st.department_capacity d c).1 }

theorem dget_dset_self {α : Type} (l : List (String × α)) (k : String) (v : α) :
    dget (dset l k v) k = some v := by
  induction l with
  | nil => simp [dset, dget]
  | cons hd t ih =>
    obtain ⟨k', v'⟩ := hd
    by_cases hk : k' = k
    · simp [dset, dget, hk]
    · simp [dset, dget, hk, ih]

theorem dset_of_dget_none {α : Type} {l : List (String × α)} {k : String}
    (h : dget l k = none) (v : α) : dset l k v = l ++ [(k, v)] := by
  induction l with
  | nil => simp [dset]
  | cons hd t ih =>
    obtain ⟨k', v'⟩ := hd
    by_cases hk : k' = k
    · simp [dget, hk] at h
    · simp only [dget, hk, if_false] at h
      simp [dset, hk, ih h]

theorem length_dset {α : Type} {l : List (String × α)} {k : String} {w : α}
    (h : dget l k = some w) (v : α) : (dset l k v).length = l.length := by
  induction l with
  | nil => simp [dget] at h
  | cons hd t ih =>
    obtain ⟨k', v'⟩ := hd
    by_cases hk : k' = k
    · simp [dset, hk]
    · simp only [dget, hk, if_false] at h
      simp [dset, hk, ih h]

theorem keys_dset {α : Type} {l : List (String × α)} {k : String} {w : α}
    (h : dget l k = some w) (v : α) :
    (dset l k v).map Prod.fst = l.map Prod.fst := by
  induction l with
  | nil => simp [dget] at h
  | cons hd t ih =>
    obtain ⟨k', v'⟩ := hd
    by_cases hk : k' = k
    · simp [dset, hk]
    · simp only [dget, hk, if_false] at h
      simp [dset, hk, ih h]

theorem mem_dset {α : Type} {l : List (String × α)} {k : String} {v : α}
    {x : String × α} (h : x ∈ dset l k v) : x = (k, v) ∨ x ∈ l := by
  induction l with
  | nil => simpa [dset] using h
  | cons hd t ih =>
    obtain ⟨k', v'⟩ := hd
    by_cases hk : k' = k
    · simp [dset, hk] at h
      rcases h with h | h
      · exact Or.inl (by simp [h])
      · exact Or.inr (by simp [h])
    · simp [dset, hk] at h
      rcases h with h | h
      · exact Or.inr (by simp [h])
      · rcases ih h with h2 | h2
        · exact Or.inl h2
        · exact Or.inr (by simp [h2])

theorem dget_mem {α : Type} {l : List (String × α)} {k : String} {v : α}
    (h : dget l k = some v) : (k, v) ∈ l := by
  induction l with
  | nil => simp [dget] at h
  | cons hd t ih =>
    obtain ⟨k', v'⟩ := hd
    by_cases hk : k' = k
    · simp [dget, hk] at h
      simp [hk, h]
    · simp only [dget, hk, if_false] at h
      simp [ih h]

theorem dget_none_of_not_mem_keys {α : Type} {l : List (String × α)} {k : String}
    (h : k ∉ l.map Prod.fst) : dget l k = none := by
  induction l with
  | nil => rfl
  | cons hd t ih =>
    obtain ⟨k', v'⟩ := hd
    rw [List.map_cons] at h
    simp only [List.mem_cons, not_or] at h
    have hk : ¬k' = k := fun e => h.1 e.symm
    simp [dget, hk, ih h.2]

theorem keys_mem_of_dget {α : Type} {l : List (String × α)} {k : String} {v : α}
    (h : dget l k = some v) : k ∈ l.map Prod.fst := by
  have := dget_mem h
  exact List.mem_map.mpr ⟨(k, v), this, rfl⟩

/-- The concatenation of all queue contents, in dict order. -/
def qjoin (l : List (String × List TriagePatientRec)) : List TriagePatientRec :=
  l.foldr (fun dq acc => dq.2 ++ acc) []

theorem qjoin_nil : qjoin [] = [] := rfl

theorem qjoin_cons (dq : String × List TriagePatientRec)
    (t : List (String × List TriagePatientRec)) :
    qjoin (dq :: t) = dq.2 ++ qjoin t := rfl

theorem all_queued_eq (st : TriageState) : all_queued st = qjoin st.department_queues := rfl

theorem qjoin_dset_append {l : List (String × List TriagePatientRec)} {k : String}
    {q : List TriagePatientRec} (p : TriagePatientRec) (h : dget l k = some q) :
    List.Perm (qjoin (dset l k (q ++ [p]))) (p :: qjoin l) := by
  induction l with
  | nil => simp [dget] at h
  | cons hd t ih =>
    obtain ⟨k', q'⟩ := hd
    by_cases hk : k' = k
    · subst hk
      simp only [dget, if_pos rfl] at h
      injection h with h
      subst h
      simp only [dset, if_pos rfl, if_true, eq_self_iff_true, qjoin_cons]
      rw [List.append_assoc]
      exact List.perm_middle
    · simp only [dget, hk, if_false] at h
      simp only [dset, hk, if_false, qjoin_cons]
      exact ((ih h).append_left q').trans List.perm_middle

theorem sum_map_length_eq_qjoin (l : List (String × List TriagePatientRec)) :
    (l.map (fun dq => dq.2.length)).sum = (qjoin l).length := by
  induction l with
  | nil => rfl
  | cons hd t ih => simp [qjoin_cons, ih]

theorem queue_size_sum_eq (st : TriageState) :
    queue_size_sum st = (all_queued st).length := by
  simpa [queue_size_sum, all_queued_eq] using sum_map_length_eq_qjoin st.department_queues

/-- Shape analysis of the shared registration block: either the state is
untouched (classifier failure or a `KeyError` on the assigned queue), or the
request succeeded and the new state appends the freshly built entry to the
assigned queue and overwrites the registry key. -/
theorem classify_register_cases (st : TriageState) (pid : String)
    (cls : Option (String × String)) (now : ℚ) (c m : Bool) :
    ((classify_and_register st pid cls now c m).1 = st ∧
      ∃ e, (classify_and_register st pid cls now c m).2 = .error e) ∨
    ∃ risk primary q,
      cls = some (risk, primary) ∧
      dget st.department_queues (load_balance st primary) = some q ∧
      (classify_and_register st pid cls now c m).1 =
        { st with
          department_queues := dset st.department_queues (load_balance st primary)
            (q ++ [TriagePatientRec.mk_at pid risk (load_balance st primary) now]),
          patient_registry := dset st.patient_registry pid
            (TriagePatientRec.mk_at pid risk (load_balance st primary) now) } := by
  match hcls : cls with
  | none => exact Or.inl (by simp [classify_and_register])
  | some (risk, primary) =>
    match hq : dget st.department_queues (load_balance st primary) with
    | none => exact Or.inl (by simp [classify_and_register, hq])
    | some q =>
      refine Or.inr ⟨risk, primary, q, rfl, hq, ?_⟩
      simp [classify_and_register, hq]

/-- If the shared registration block reports an error, the state is untouched. -/
theorem classify_register_error_state {st : TriageState} {pid : String}
    {cls : Option (String × String)} {now : ℚ} {c m : Bool} {st2 : TriageState}
    {e : String} (h : classify_and_register st pid cls now c m = (st2, .error e)) :
    st2 = st := by
  rcases classify_register_cases st pid cls now c m with ⟨h1, _⟩ | ⟨r, pr, q, hcls, hq, _⟩
  · rw [h] at h1; exact h1
  · subst hcls
    simp [classify_and_register, hq] at h

/-- If `triage_patient` reports an error, the state is untouched. -/
theorem triage_patient_error_state {st : TriageState} {inp : PatientInput} {now : ℚ}
    {c m : Bool} {st2 : TriageState} {e : String}
    (h : triage_patient st inp now c m = (st2, .error e)) : st2 = st := by
  unfold triage_patient at h
  match hx : extract_features_single inp with
  | none => rw [hx] at h; injection h with h1 _; exact h1.symm
  | some fs => rw [hx] at h; exact classify_register_error_state h

/-- If one batch iteration reports an error, the state is untouched. -/
theorem batch_one_error_state {st : TriageState} {inp : PatientInput} {now : ℚ}
    {c m : Bool} {st2 : TriageState} {e : String}
    (h : batch_one st inp now c m = (st2, .error e)) : st2 = st := by
  unfold batch_one at h
  match hx : extract_features_batch inp with
  | none => rw [hx] at h; injection h with h1 _; exact h1.symm
  | some fs =>
    rw [hx] at h
    match hcr : classify_and_register st inp.patient_id inp.classifier now c m with
    | (st1, .error e1) =>
      rw [hcr] at h
      injection h with h1 _
      exact h1 ▸ classify_register_error_state hcr
    | (st1, .ok r) => rw [hcr] at h; simp at h

/-- Conservation invariant: the queued patient ids are a permutation of the
registry keys, and the registry keys are pairwise distinct. -/
def ConservationInv (st : TriageState) : Prop :=
  List.Perm (queued_ids st) (registry_ids st) ∧ (registry_ids st).Nodup

/-- One registration with a patient id that is not yet a registry key
preserves the conservation invariant, and adds at most that id to the
registry keys. -/
theorem classify_register_conservation {st : TriageState} {pid : String}
    (cls : Option (String × String)) (now : ℚ) (c m : Bool)
    (hfresh : pid ∉ registry_ids st) (hinv : ConservationInv st) :
    ConservationInv (classify_and_register st pid cls now c m).1 ∧
    ∀ x ∈ registry_ids (classify_and_register st pid cls now c m).1,
      x ∈ registry_ids st ∨ x = pid := by
  rcases classify_register_cases st pid cls now c m with ⟨h1, _⟩ | ⟨r, pr, q, hcls, hq, h1⟩
  · rw [h1]
    exact ⟨hinv, fun x hx => Or.inl hx⟩
  · rw [h1]
    have hreg : dget st.patient_registry pid = none :=
      dget_none_of_not_mem_keys hfresh
    have hset : dset st.patient_registry pid
        (TriagePatientRec.mk_at pid r (load_balance st pr) now) =
        st.patient_registry ++ [(pid, TriagePatientRec.mk_at pid r (load_balance st pr) now)] :=
      dset_of_dget_none hreg _
    have hq2 : List.Perm
        (queued_ids { st with
          department_queues := dset st.department_queues (load_balance st pr)
            (q ++ [TriagePatientRec.mk_at pid r (load_balance st pr) now]),
          patient_registry := dset st.patient_registry pid
            (TriagePatientRec.mk_at pid r (load_balance st pr) now) })
        (pid :: queued_ids st) := by
      have := qjoin_dset_append (TriagePatientRec.mk_at pid r (load_balance st pr) now) hq
      have hmap := this.map (fun p => p.patient_id)
      simpa [queued_ids, all_queued_eq, TriagePatientRec.mk_at] using hmap
    have hrids : registry_ids { st with
          department_queues := dset st.department_queues (load_balance st pr)
            (q ++ [TriagePatientRec.mk_at pid r (load_balance st pr) now]),
          patient_registry := dset st.patient_registry pid
            (TriagePatientRec.mk_at pid r (load_balance st pr) now) } =
        registry_ids st ++ [pid] := by
      simp [registry_ids, hset]
    constructor
    · constructor
      · refine hq2.trans ?_
        rw [hrids]
        exact (hinv.1.cons pid).trans (List.perm_append_singleton pid (registry_ids st)).symm
      · rw [hrids]
        simp [List.nodup_append, hinv.2, hfresh]
    · intro x hx
      rw [hrids] at hx
      rcases List.mem_append.mp hx with hx | hx
      · exact Or.inl hx
      · simp at hx
        exact Or.inr hx

/-- Lift of `classify_register_conservation` to the single-admission route. -/
theorem triage_patient_conservation {st : TriageState} {inp : PatientInput}
    (now : ℚ) (c m : Bool) (hfresh : inp.patient_id ∉ registry_ids st)
    (hinv : ConservationInv st) :
    ConservationInv (triage_patient st inp now c m).1 ∧
    ∀ x ∈ registry_ids (triage_patient st inp now c m).1,
      x ∈ registry_ids st ∨ x = inp.patient_id := by
  unfold triage_patient
  match hx : extract_features_single inp with
  | none => exact ⟨hinv, fun x hx2 => Or.inl hx2⟩
  | some fs => exact classify_register_conservation inp.classifier now c m hfresh hinv

/-- Lift of `classify_register_conservation` to one batch iteration. -/
theorem batch_one_conservation {st : TriageState} {inp : PatientInput}
    (now : ℚ) (c m : Bool) (hfresh : inp.patient_id ∉ registry_ids st)
    (hinv : ConservationInv st) :
    ConservationInv (batch_one st inp now c m).1 ∧
    ∀ x ∈ registry_ids (batch_one st inp now c m).1,
      x ∈ registry_ids st ∨ x = inp.patient_id := by
  unfold batch_one
  match hx : extract_features_batch inp with
  | none => exact ⟨hinv, fun x hx2 => Or.inl hx2⟩
  | some fs =>
    have h := classify_register_conservation
      inp.classifier now c m hfresh hinv
    match hcr : classify_and_register st inp.patient_id inp.classifier now c m with
    | (st1, .error e) =>
      rw [hcr] at h
      exact h
    | (st1, .ok r) =>
      rw [hcr] at h
      exact h

/-- The batch route preserves the conservation invariant when the batch
carries pairwise-distinct patient ids that are all new to the registry (this
includes runs that abort in the middle of the batch). -/
theorem batch_stream_conservation (now : ℚ) (c m : Bool) :
    ∀ (inps : List PatientInput) (st : TriageState), ConservationInv st →
    (∀ x ∈ inps.map (fun i => i.patient_id), x ∉ registry_ids st) →
    (inps.map (fun i => i.patient_id)).Nodup →
    ConservationInv (triage_batch_stream st inps now c m).1 ∧
    ∀ x ∈ registry_ids (triage_batch_stream st inps now c m).1,
      x ∈ registry_ids st ∨ x ∈ inps.map (fun i => i.patient_id)
  | [], st, hinv, _, _ => ⟨hinv, fun x hx => Or.inl hx⟩
  | inp :: rest, st, hinv, hfresh, hnd => by
    have hpid : inp.patient_id ∉ registry_ids st := hfresh _ (by simp)
    have hstep := batch_one_conservation now c m hpid hinv
    rw [List.map_cons, List.nodup_cons] at hnd
    match hb : batch_one st inp now c m with
    | (st1, .error e) =>
      have hse : st1 = st := batch_one_error_state hb
      rw [hb] at hstep
      simp only [triage_batch_stream, hb]
      subst hse
      exact ⟨hinv, fun x hx => Or.inl hx⟩
    | (st1, .ok r) =>
      rw [hb] at hstep
      have hfresh1 : ∀ x ∈ rest.map (fun i => i.patient_id), x ∉ registry_ids st1 := by
        intro x hx hmem
        rcases hstep.2 x hmem with h2 | h2
        · exact hfresh x (by simp [hx]) h2
        · rw [h2] at hx
          exact hnd.1 hx
      have hrec := batch_stream_conservation now c m rest st1 hstep.1 hfresh1 hnd.2
      simp only [triage_batch_stream, hb]
      match hr : triage_batch_stream st1 rest now c m with
      | (st2, .ok rs) =>
        rw [hr] at hrec
        refine ⟨hrec.1, fun x hx => ?_⟩
        rcases hrec.2 x hx with h2 | h2
        · rcases hstep.2 x h2 with h3 | h3
          · exact Or.inl h3
          · exact Or.inr (by simp [h3])
        · exact Or.inr (by simp [h2])
      | (st2, .error e) =>
        rw [hr] at hrec
        refine ⟨hrec.1, fun x hx => ?_⟩
        rcases hrec.2 x hx with h2 | h2
        · rcases hstep.2 x h2 with h3 | h3
          · exact Or.inl h3
          · exact Or.inr (by simp [h3])
        · exact Or.inr (by simp [h2])

/-- One request preserves the conservation invariant when its patient ids
are distinct and new. -/
theorem run_op_conservation (op : TriageOp) (st : TriageState)
    (hinv : ConservationInv st)
    (hfresh : ∀ x ∈ op_pids op, x ∉ registry_ids st)
    (hnd : (op_pids op).Nodup) :
    ConservationInv (run_op st op) ∧
    ∀ x ∈ registry_ids (run_op st op), x ∈ registry_ids st ∨ x ∈ op_pids op := by
  match op with
  | .single inp now c m =>
    have hp : inp.patient_id ∉ registry_ids st :=
      hfresh inp.patient_id (by simp [op_pids])
    have h := triage_patient_conservation now c m hp hinv
    refine ⟨h.1, fun x hx => ?_⟩
    rcases h.2 x hx with h2 | h2
    · exact Or.inl h2
    · exact Or.inr (by simp [op_pids, h2])
  | .batch inps now c m =>
    exact batch_stream_conservation now c m inps st hinv hfresh hnd

/-- A request sequence with pairwise-distinct, registry-new patient ids
keeps the conservation invariant at every point between requests. -/
theorem run_ops_conservation :
    ∀ (ops : List TriageOp) (st : TriageState), ConservationInv st →
    (∀ x ∈ ops_pids ops, x ∉ registry_ids st) → (ops_pids ops).Nodup →
    (∀ k : Nat, ConservationInv (run_ops st (ops.take k))) ∧
    ∀ x ∈ registry_ids (run_ops st ops), x ∈ registry_ids st ∨ x ∈ ops_pids ops
  | [], st, hinv, _, _ => by
    refine ⟨fun k => ?_, fun x hx => Or.inl hx⟩
    simp [run_ops]
    exact hinv
  | op :: rest, st, hinv, hfresh, hnd => by
    rw [ops_pids, List.nodup_append] at hnd
    have hfresh_op : ∀ x ∈ op_pids op, x ∉ registry_ids st := by
      intro x hx
      exact hfresh x (by rw [ops_pids]; exact List.mem_append.mpr (Or.inl hx))
    have hstep := run_op_conservation op st hinv hfresh_op hnd.1
    have hfresh_rest : ∀ x ∈ ops_pids rest, x ∉ registry_ids (run_op st op) := by
      intro x hx hmem
      rcases hstep.2 x hmem with h2 | h2
      · exact hfresh x (by rw [ops_pids]; exact List.mem_append.mpr (Or.inr hx)) h2
      · exact hnd.2.2 h2 hx
    have hrec := run_ops_conservation rest (run_op st op) hstep.1 hfresh_rest hnd.2.1
    constructor
    · intro k
      match k with
      | 0 => simpa [run_ops] using hinv
      | Nat.succ k2 =>
        rw [List.take_succ_cons]
        simpa [run_ops] using hrec.1 k2
    · intro x hx
      rw [show run_ops st (op :: rest) = run_ops (run_op st op) rest from rfl] at hx
      rcases hrec.2 x hx with h2 | h2
      · rcases hstep.2 x h2 with h3 | h3
        · exact Or.inl h3
        · exact Or.inr (by rw [ops_pids]; exact List.mem_append.mpr (Or.inl h3))
      · exact Or.inr (by rw [ops_pids]; exact List.mem_append.mpr (Or.inr h2))

/-- The fold of Python `min` never returns a value larger than the running
best or than any scanned queue length. -/
theorem min_load_loop_le (l : List (String × List TriagePatientRec)) :
    ∀ best : String × Nat, (min_load_loop best l).2 ≤ best.2 ∧
      ∀ dq ∈ l, (min_load_loop best l).2 ≤ dq.2.length := by
  induction l with
  | nil => intro best; exact ⟨le_rfl, by simp⟩
  | cons hd t ih =>
    intro best
    obtain ⟨d, q⟩ := hd
    by_cases hlt : q.length < best.2
    · simp only [min_load_loop, if_pos hlt]
      have h := ih (d, q.length)
      refine ⟨le_trans h.1 (le_of_lt hlt), fun dq hdq => ?_⟩
      rcases List.mem_cons.mp hdq with h2 | h2
      · rw [h2]; exact h.1
      · exact h.2 dq h2
    · simp only [min_load_loop, if_neg hlt]
      have h := ih best
      refine ⟨h.1, fun dq hdq => ?_⟩
      rcases List.mem_cons.mp hdq with h2 | h2
      · rw [h2]; exact le_trans h.1 (not_lt.mp hlt)
      · exact h.2 dq h2

/-- The fold of Python `min` returns the running best or a scanned pair. -/
theorem min_load_loop_mem (l : List (String × List TriagePatientRec)) :
    ∀ best : String × Nat, min_load_loop best l = best ∨
      ∃ dq ∈ l, min_load_loop best l = (dq.1, dq.2.length) := by
  induction l with
  | nil => intro best; exact Or.inl rfl
  | cons hd t ih =>
    intro best
    obtain ⟨d, q⟩ := hd
    by_cases hlt : q.length < best.2
    · simp only [min_load_loop, if_pos hlt]
      rcases ih (d, q.length) with h | ⟨dq, hdq, h⟩
      · exact Or.inr ⟨(d, q), by simp, h⟩
      · exact Or.inr ⟨dq, by simp [hdq], h⟩
    · simp only [min_load_loop, if_neg hlt]
      rcases ih best with h | ⟨dq, hdq, h⟩
      · exact Or.inl h
      · exact Or.inr ⟨dq, by simp [hdq], h⟩

/-- The department Python `min` picks holds a queue no longer than any other
department's queue. -/
theorem min_load_dept_spec {qs : List (String × List TriagePatientRec)} {d : String}
    (h : min_load_dept qs = some d) :
    ∃ q, (d, q) ∈ qs ∧ ∀ dq ∈ qs, q.length ≤ dq.2.length := by
  match qs with
  | [] => simp [min_load_dept] at h
  | (d0, q0) :: rest =>
    simp only [min_load_dept, Option.some.injEq] at h
    have hle := min_load_loop_le rest (d0, q0.length)
    have hmem := min_load_loop_mem rest (d0, q0.length)
    have hall : ∀ dq ∈ (d0, q0) :: rest,
        (min_load_loop (d0, q0.length) rest).2 ≤ dq.2.length := by
      intro dq hdq
      rcases List.mem_cons.mp hdq with h2 | h2
      · rw [h2]; exact hle.1
      · exact hle.2 dq h2
    rcases hmem with h2 | ⟨dq, hdq, h2⟩
    · refine ⟨q0, ?_, ?_⟩
      · rw [← h, h2]; simp
      · intro dq hdq
        have := hall dq hdq
        rw [h2] at this
        exact this
    · refine ⟨dq.2, ?_, ?_⟩
      · have : d = dq.1 := by rw [← h, h2]
        rw [this]
        exact List.mem_cons.mpr (Or.inr hdq)
      · intro dq2 hdq2
        have := hall dq2 hdq2
        rw [h2] at this
        exact this

/-- Below capacity the primary department keeps the patient. -/
theorem load_balance_below {st : TriageState} {primary : String}
    {q : List TriagePatientRec} {cap : Int}
    (hq : dget st.department_queues primary = some q)
    (hcap : dget st.department_capacity primary = some cap)
    (hlt : (q.length : Int) < cap) : load_balance st primary = primary := by
  unfold load_balance
  rw [hq, hcap]
  simp [not_le.mpr hlt]

/-- At or over capacity the least-loaded known department takes the patient. -/
theorem load_balance_over {st : TriageState} {primary : String}
    {q : List TriagePatientRec} {cap : Int}
    (hq : dget st.department_queues primary = some q)
    (hcap : dget st.department_capacity primary = some cap)
    (hge : cap ≤ (q.length : Int)) :
    load_balance st primary = (min_load_dept st.department_queues).getD primary := by
  unfold load_balance
  rw [hq, hcap]
  simp [hge]

/-- A queue dict with at least one key always yields a minimum. -/
theorem min_load_dept_isSome {qs : List (String × List TriagePatientRec)}
    {k : String} {v : List TriagePatientRec} (h : dget qs k = some v) :
    ∃ d, min_load_dept qs = some d := by
  match qs with
  | [] => simp [dget] at h
  | hd :: rest => exact ⟨_, rfl⟩

/-- Evaluation of the registration block on a classifier failure. -/
theorem classify_register_none_eq (st : TriageState) (pid : String) (now : ℚ)
    (c m : Bool) :
    classify_and_register st pid none now c m = (st, .error "classifier error") := rfl

/-- Evaluation of the registration block when the assigned department has no
queue (`KeyError`). -/
theorem classify_register_keyerr_eq (st : TriageState) (pid risk primary : String)
    (now : ℚ) (c m : Bool)
    (hq : dget st.department_queues (load_balance st primary) = none) :
    classify_and_register st pid (some (risk, primary)) now c m =
      (st, .error "KeyError") := by
  simp [classify_and_register, hq]

/-- Evaluation of the registration block on the success path. -/
theorem classify_register_ok_eq (st : TriageState) (pid risk primary : String)
    (now : ℚ) (c m : Bool) {q : List TriagePatientRec}
    (hq : dget st.department_queues (load_balance st primary) = some q) :
    classify_and_register st pid (some (risk, primary)) now c m =
      ({ st with
         department_queues := dset st.department_queues (load_balance st primary)
           (q ++ [TriagePatientRec.mk_at pid risk (load_balance st primary) now]),
         patient_registry := dset st.patient_registry pid
           (TriagePatientRec.mk_at pid risk (load_balance st primary) now) },
       .ok { patient_id := pid, risk_level := risk,
             assigned_department := load_balance st primary,
             primary_department := primary,
             load_balanced := load_balance st primary ≠ primary,
             queue_position := q.length + 1,
             estimated_wait_time_minutes := ((q.length + 1 : Nat) : ℚ) * (5 / 2) }) := by
  simp [classify_and_register, hq]

/-- Evaluation of the single-admission route on a failing vitals cast. -/
theorem triage_patient_extract_none {inp : PatientInput} (st : TriageState)
    (now : ℚ) (c m : Bool) (hx : extract_features_single inp = none) :
    triage_patient st inp now c m = (st, .error "ValueError") := by
  simp [triage_patient, hx]

/-- Evaluation of the single-admission route once the vitals casts succeed. -/
theorem triage_patient_extract_some {inp : PatientInput} {fs : List ℚ}
    (st : TriageState) (now : ℚ) (c m : Bool)
    (hx : extract_features_single inp = some fs) :
    triage_patient st inp now c m =
      classify_and_register st inp.patient_id inp.classifier now c m := by
  simp [triage_patient, hx]

/-- A successful single admission names the classifier's output and routes
through `load_balance`. -/
theorem triage_patient_ok_shape {st : TriageState} {inp : PatientInput} {now : ℚ}
    {c m : Bool} {st2 : TriageState} {res : TriageResult}
    (hok : triage_patient st inp now c m = (st2, .ok res)) :
    ∃ risk primary, inp.classifier = some (risk, primary) ∧
      res.assigned_department = load_balance st primary ∧
      res.primary_department = primary := by
  match hx : extract_features_single inp with
  | none => rw [triage_patient_extract_none st now c m hx] at hok; simp at hok
  | some fs =>
    rw [triage_patient_extract_some st now c m hx] at hok
    match hcls : inp.classifier with
    | none => rw [hcls, classify_register_none_eq] at hok; simp at hok
    | some (risk, primary) =>
      rw [hcls] at hok
      match hq : dget st.department_queues (load_balance st primary) with
      | none =>
        rw [classify_register_keyerr_eq st inp.patient_id risk primary now c m hq] at hok
        simp at hok
      | some q =>
        rw [classify_register_ok_eq st inp.patient_id risk primary now c m hq] at hok
        simp only [Prod.mk.injEq, Except.ok.injEq] at hok
        refine ⟨risk, primary, rfl, ?_, ?_⟩
        · rw [← hok.2]
        · rw [← hok.2]

theorem ordered_insert_desc_perm {α : Type} (key : α → ℚ) (x : α) (l : List α) :
    List.Perm (ordered_insert_desc key x l) (x :: l) := by
  induction l with
  | nil => exact List.Perm.refl _
  | cons y t ih =>
    by_cases hc : key y ≤ key x
    · simp only [ordered_insert_desc, if_pos hc]
      exact List.Perm.refl _
    · simp only [ordered_insert_desc, if_neg hc]
      exact (ih.cons y).trans (List.Perm.swap x y t)

theorem sort_desc_perm {α : Type} (key : α → ℚ) (l : List α) :
    List.Perm (sort_desc key l) l := by
  induction l with
  | nil => exact List.Perm.refl _
  | cons x t ih =>
    exact (ordered_insert_desc_perm key x (sort_desc key t)).trans (ih.cons x)

theorem ordered_insert_desc_map {α β : Type} (g : α → β) (key : β → ℚ) (x : α)
    (l : List α) :
    ordered_insert_desc key (g x) (l.map g) =
      (ordered_insert_desc (fun a => key (g a)) x l).map g := by
  induction l with
  | nil => rfl
  | cons y t ih =>
    by_cases hc : key (g y) ≤ key (g x)
    · simp [ordered_insert_desc, hc]
    · simp [ordered_insert_desc, hc, ih]

theorem sort_desc_map {α β : Type} (g : α → β) (key : β → ℚ) (l : List α) :
    sort_desc key (l.map g) = (sort_desc (fun a => key (g a)) l).map g := by
  induction l with
  | nil => rfl
  | cons x t ih => simp only [List.map_cons, sort_desc, ih, ordered_insert_desc_map]

theorem filter_map_pres {α β : Type} (g : α → β) (pr : β → Bool) (pr2 : α → Bool)
    (h : ∀ a, pr (g a) = pr2 a) (l : List α) :
    (l.map g).filter pr = (l.filter pr2).map g := by
  induction l with
  | nil => rfl
  | cons x t ih =>
    by_cases hx : pr2 x
    · simp only [List.map_cons, List.filter_cons, h x, hx, ih, if_pos, if_true]
    · have : pr2 x = false := by simpa using hx
      simp only [List.map_cons, List.filter_cons, h x, this, ih, Bool.false_eq_true,
        if_false]

theorem build_rows_length (now : ℚ) :
    ∀ (i : Nat) (l : List TriagePatientRec), (build_rows now i l).length = l.length
  | _, [] => rfl
  | i, p :: t => by simp [build_rows, build_rows_length now (i + 1) t]

theorem build_rows_map_pid (now : ℚ) :
    ∀ (i : Nat) (l : List TriagePatientRec),
      (build_rows now i l).map (fun e => e.patient_id) =
        l.map (fun p => p.patient_id)
  | _, [] => rfl
  | i, p :: t => by simp [build_rows, build_rows_map_pid now (i + 1) t]

/-- Replacing every stored `priority_score` by an arbitrary value: the
fields `queue_priority` actually reads are untouched. -/
def set_stored_score (p : TriagePatientRec) (s : ℚ) : TriagePatientRec :=
  { p with priority_score := s }

/-- A state whose queued entries all carry rewritten stored scores. -/
def map_stored_scores (st : TriageState) (f : TriagePatientRec → ℚ) : TriageState :=
  { st with department_queues :=
      st.department_queues.map (fun dq => (dq.1, dq.2.map (fun p => set_stored_score p (f p)))) }

theorem dget_map_values {α β : Type} (g : α → β)
    (l : List (String × α)) (k : String) :
    dget (l.map (fun e => (e.1, g e.2))) k = (dget l k).map g := by
  induction l with
  | nil => rfl
  | cons hd t ih =>
    obtain ⟨k', v'⟩ := hd
    by_cases hk : k' = k
    · simp [dget, hk]
    · simp [dget, hk, ih]

theorem build_rows_map_invariant (now : ℚ) (g : TriagePatientRec → TriagePatientRec)
    (hid : ∀ p, (g p).patient_id = p.patient_id)
    (hrisk : ∀ p, (g p).risk_level = p.risk_level)
    (harr : ∀ p, (g p).arrival_time = p.arrival_time) :
    ∀ (i : Nat) (l : List TriagePatientRec),
      build_rows now i (l.map g) = build_rows now i l
  | _, [] => rfl
  | i, p :: t => by
    simp only [List.map_cons, build_rows, hid p, hrisk p, harr p,
      build_rows_map_invariant now g hid hrisk harr (i + 1) t]

/-- Every entry sitting in a department's queue records that department in
its `department` field. -/
def dept_field_inv (st : TriageState) : Prop :=
  ∀ dq ∈ st.department_queues, ∀ p ∈ dq.2, p.department = dq.1

theorem classify_register_dept_field {st : TriageState} (pid : String)
    (cls : Option (String × String)) (now : ℚ) (c m : Bool)
    (hinv : dept_field_inv st) :
    dept_field_inv (classify_and_register st pid cls now c m).1 := by
  rcases classify_register_cases st pid cls now c m with ⟨h1, _⟩ | ⟨r, pr, q, hcls, hq, h1⟩
  · rw [h1]; exact hinv
  · rw [h1]
    intro dq hdq p hp
    rcases mem_dset hdq with h2 | h2
    · subst h2
      rcases List.mem_append.mp hp with h3 | h3
      · exact hinv _ (dget_mem hq) p h3
      · simp at h3
        rw [h3]
        rfl
    · exact hinv dq h2 p hp

theorem triage_patient_dept_field {st : TriageState} (inp : PatientInput)
    (now : ℚ) (c m : Bool) (hinv : dept_field_inv st) :
    dept_field_inv (triage_patient st inp now c m).1 := by
  match hx : extract_features_single inp with
  | none => rw [triage_patient_extract_none st now c m hx]; exact hinv
  | some fs =>
    rw [triage_patient_extract_some st now c m hx]
    exact classify_register_dept_field inp.patient_id inp.classifier now c m hinv

theorem batch_one_fst_classify {st : TriageState} {inp : PatientInput} {fs : List ℚ}
    (now : ℚ) (c m : Bool) (hx : extract_features_batch inp = some fs) :
    (batch_one st inp now c m).1 =
      (classify_and_register st inp.patient_id inp.classifier now c m).1 := by
  cases hcr : classify_and_register st inp.patient_id inp.classifier now c m with
  | mk st2 r => cases r <;> simp [batch_one, hx, hcr]

theorem batch_one_dept_field {st : TriageState} (inp : PatientInput)
    (now : ℚ) (c m : Bool) (hinv : dept_field_inv st) :
    dept_field_inv (batch_one st inp now c m).1 := by
  match hx : extract_features_batch inp with
  | none => simp only [batch_one, hx]; exact hinv
  | some fs =>
    rw [batch_one_fst_classify now c m hx]
    exact classify_register_dept_field inp.patient_id inp.classifier now c m hinv

theorem batch_stream_dept_field (now : ℚ) (c m : Bool) :
    ∀ (inps : List PatientInput) (st : TriageState), dept_field_inv st →
      dept_field_inv (triage_batch_stream st inps now c m).1
  | [], _, hinv => hinv
  | inp :: rest, st, hinv => by
    have h1 := batch_one_dept_field inp now c m hinv
    cases hb : batch_one st inp now c m with
    | mk st1 r =>
      rw [hb] at h1
      cases r with
      | error e => simp only [triage_batch_stream, hb]; exact h1
      | ok r =>
        simp only [triage_batch_stream, hb]
        have h2 := batch_stream_dept_field now c m rest st1 h1
        cases hr : triage_batch_stream st1 rest now c m with
        | mk st2 rs =>
          rw [hr] at h2
          cases rs <;> exact h2

/-- In every reachable state the queue-membership / `department`-field
agreement holds. -/
theorem reachable_dept_field {st : TriageState} (h : Reachable st) :
    dept_field_inv st := by
  induction h with
  | init caps t =>
    intro dq hdq p hp
    rcases List.mem_map.mp hdq with ⟨cpr, _, he⟩
    rw [← he] at hp
    simp at hp
  | step_single inp now c m _ ih => exact triage_patient_dept_field inp now c m ih
  | step_batch inps now c m _ ih => exact batch_stream_dept_field now c m inps _ ih
  | step_reset now _ ih =>
    intro dq hdq p hp
    rcases List.mem_map.mp hdq with ⟨cpr, _, he⟩
    rw [← he] at hp
    simp at hp
  | step_capacity d c _ ih => exact ih

/-- An empty queue table joined up is empty. -/
theorem qjoin_map_nil (caps : List (String × Int)) :
    qjoin (caps.map (fun c => (c.1, ([] : List TriagePatientRec)))) = [] := by
  induction caps with
  | nil => rfl
  | cons hd t ih => simp [qjoin_cons, ih]

/-- A fresh session satisfies the conservation invariant. -/
theorem fresh_state_conservation (caps : List (String × Int)) (t : ℚ) :
    ConservationInv (fresh_state caps t) := by
  constructor
  · simp [queued_ids, all_queued_eq, fresh_state, registry_ids, qjoin_map_nil]
  · simp [registry_ids, fresh_state]

/-- A well-formed admission request used by the concrete witnesses: all
vitals are plain numbers and the classifier answers (high, Emergency). -/
def sample_input (pid : String) : PatientInput :=
  { patient_id := pid, age := some (.jnum 40),
    blood_pressure_systolic := some (.jnum 120),
    blood_pressure_diastolic := some (.jnum 80),
    heart_rate := some (.jnum 75), temperature := some (.jnum 98),
    oxygen_saturation := some (.jnum 97), pain_level := some (.jnum 3),
    classifier := some ("high", "Emergency") }

/-- A request whose `age` field `float()` cannot convert. -/
def bad_vitals_input (pid : String) : PatientInput :=
  { sample_input pid with age := some JVal.jbad }

/-- C3: for every risk level, arrival time and evaluation time `now ≥ arrival`,
the priority score equals `base + min(wait_minutes * 0.1, 30)` with base
100 / 50 / 10 for high / medium / low and 10 for any other risk value; the
score is monotonically non-decreasing in the evaluation time for a fixed
risk level; the wait bonus never exceeds 30; and a low-risk patient who has
waited 300 minutes (18000 seconds) scores exactly 40. -/
theorem C3_priority_score_formula (risk : String) (arrival now now2 : ℚ)
    (h1 : arrival ≤ now) (h2 : now ≤ now2) :
    calculate_priority risk arrival now =
      (if risk = "high" then (100 : ℚ) else if risk = "medium" then 50
        else if risk = "low" then 10 else 10) +
      min ((now - arrival) / 60 * (1 / 10)) 30 ∧
    calculate_priority risk arrival now ≤ calculate_priority risk arrival now2 ∧
    min ((now - arrival) / 60 * (1 / 10)) 30 ≤ 30 ∧
    calculate_priority "low" 0 18000 = 40 := by
  refine ⟨rfl, ?_, min_le_right _ _, ?_⟩
  · unfold calculate_priority
    have h3 : (now - arrival) / 60 * (1 / 10) ≤ (now2 - arrival) / 60 * (1 / 10) := by
      linarith
    exact add_le_add_left (min_le_min h3 le_rfl) _
  · unfold calculate_priority risk_scores
    rw [if_neg (by decide), if_neg (by decide), if_pos rfl]
    norm_num

/-- Witness for C3 at risk `low`, arrival 0, evaluation times 18000 and
20000 seconds. -/
theorem C3_priority_score_formula_witness :
    ((0 : ℚ) ≤ 18000 ∧ (18000 : ℚ) ≤ 20000) ∧
    calculate_priority "low" 0 18000 = 40 ∧
    calculate_priority "low" 0 18000 ≤ calculate_priority "low" 0 20000 :=
  ⟨⟨by norm_num, by norm_num⟩,
   (C3_priority_score_formula "low" 0 18000 20000 (by norm_num) (by norm_num)).2.2.2,
   (C3_priority_score_formula "low" 0 18000 20000 (by norm_num) (by norm_num)).2.1⟩

/-- C5: persistence failures never change the outcome of an admission (the
result and the new state are identical whatever the CSV / MongoDB oracles
say); whenever the admission returns an error, the state is untouched (no
partial mutation); and `save_patient_record` reports success whenever the
CSV append succeeds, a MongoDB failure being swallowed. -/
theorem C5_persistence_isolation (st : TriageState) (inp : PatientInput) (now : ℚ) :
    (∀ c1 m1 c2 m2, triage_patient st inp now c1 m1 = triage_patient st inp now c2 m2) ∧
    (∀ c m st2 e, triage_patient st inp now c m = (st2, .error e) → st2 = st) ∧
    (∀ m, save_patient_record true m = true) := by
  refine ⟨?_, ?_, fun m => rfl⟩
  · intro c1 m1 c2 m2
    match hx : extract_features_single inp with
    | none =>
      rw [triage_patient_extract_none st now c1 m1 hx,
        triage_patient_extract_none st now c2 m2 hx]
    | some fs =>
      rw [triage_patient_extract_some st now c1 m1 hx,
        triage_patient_extract_some st now c2 m2 hx]
      match hcls : inp.classifier with
      | none => rfl
      | some (risk, primary) =>
        match hq : dget st.department_queues (load_balance st primary) with
        | none =>
          rw [classify_register_keyerr_eq st inp.patient_id risk primary now c1 m1 hq,
            classify_register_keyerr_eq st inp.patient_id risk primary now c2 m2 hq]
        | some q =>
          rw [classify_register_ok_eq st inp.patient_id risk primary now c1 m1 hq,
            classify_register_ok_eq st inp.patient_id risk primary now c2 m2 hq]
  · intro c m st2 e h
    exact triage_patient_error_state h

/-- Witness for C5: a concrete admission is identical under persistence
success and double persistence failure, and a concrete validation error
leaves the fresh state untouched. -/
theorem C5_persistence_isolation_witness :
    triage_patient (fresh_state DEFAULT_DEPARTMENT_CAPACITY 0) (sample_input "W5") 3 true true
      = triage_patient (fresh_state DEFAULT_DEPARTMENT_CAPACITY 0) (sample_input "W5") 3 false false ∧
    (triage_patient (fresh_state DEFAULT_DEPARTMENT_CAPACITY 0) (bad_vitals_input "W6") 3 false false).1
      = fresh_state DEFAULT_DEPARTMENT_CAPACITY 0 :=
  ⟨(C5_persistence_isolation (fresh_state DEFAULT_DEPARTMENT_CAPACITY 0)
      (sample_input "W5") 3).1 true true false false,
   (C5_persistence_isolation (fresh_state DEFAULT_DEPARTMENT_CAPACITY 0)
      (bad_vitals_input "W6") 3).2.1 false false _ "ValueError" rfl⟩

/-- C6 counterexample: two Reset calls at the distinct wall-clock instants
5.2 s and 5.7 s fall in the same whole second, so the time-derived session
identifiers (`SESSION_%Y%m%d_%H%M%S`, second granularity) coincide — the
claimed distinctness of all session ids within a process lifetime fails. -/
theorem C6_reset_counterexample :
    mkRat 52 10 ≠ mkRat 57 10 ∧
    (init_triage_session (fresh_state DEFAULT_DEPARTMENT_CAPACITY 0) (mkRat 52 10)).2 =
      (init_triage_session
        ((init_triage_session (fresh_state DEFAULT_DEPARTMENT_CAPACITY 0) (mkRat 52 10)).1)
        (mkRat 57 10)).2 := by
  exact ⟨by decide, by decide⟩

/-- C6 (amended): after every Reset call all department queues and the
registry are empty and Status reports `current_patients = 0` for every
department with `total_patients_in_system = 0`; the session identifier is
distinct from a previously returned one provided the two Reset calls fall
in distinct whole wall-clock seconds (the id is time-derived with
one-second granularity). -/
theorem C6_reset_completeness (st : TriageState) (t1 t2 : ℚ)
    (hne : ⌊t1⌋ ≠ ⌊t2⌋) :
    (∀ dq ∈ (init_triage_session st t1).1.department_queues, dq.2 = []) ∧
    (init_triage_session st t1).1.patient_registry = [] ∧
    (∀ e ∈ (department_status (init_triage_session st t1).1).1,
      e.2.current_patients = 0) ∧
    (department_status (init_triage_session st t1).1).2 = 0 ∧
    (init_triage_session st t1).2 ≠ (init_triage_session st t2).2 := by
  refine ⟨?_, rfl, ?_, rfl, hne⟩
  · intro dq hdq
    rcases List.mem_map.mp hdq with ⟨c, _, he⟩
    rw [← he]
  · intro e he
    rcases List.mem_map.mp he with ⟨dq, hdq, he2⟩
    rcases List.mem_map.mp hdq with ⟨c, _, he3⟩
    rw [← he2, ← he3]
    rfl

/-- Witness for C6 at Reset times 0 s and 1 s. -/
theorem C6_reset_completeness_witness :
    (⌊(0 : ℚ)⌋ ≠ ⌊(1 : ℚ)⌋) ∧
    (init_triage_session (fresh_state DEFAULT_DEPARTMENT_CAPACITY 0) 0).2 ≠
      (init_triage_session (fresh_state DEFAULT_DEPARTMENT_CAPACITY 0) 1).2 ∧
    (department_status
      (init_triage_session (fresh_state DEFAULT_DEPARTMENT_CAPACITY 0) 0).1).2 = 0 :=
  ⟨by decide,
   (C6_reset_completeness (fresh_state DEFAULT_DEPARTMENT_CAPACITY 0) 0 1
     (by decide)).2.2.2.2,
   (C6_reset_completeness (fresh_state DEFAULT_DEPARTMENT_CAPACITY 0) 0 1
     (by decide)).2.2.2.1⟩

/-- C7 counterexample: the non-integer capacity 7.5 (= `mkRat 15 2`) on a
known department is NOT rejected with `InvalidCapacity`: `int(capacity)`
truncates it and the update succeeds with old value 15 and new value 7. -/
theorem C7_capacity_counterexample :
    (update_department_capacity [("Emergency", 15)] (some "Emergency")
        (some (JVal.jnum (mkRat 15 2)))).2 = Except.ok ((15 : Int), (7 : Int)) ∧
    ¬ ∃ n : Int, mkRat 15 2 = (n : ℚ) := by
  constructor
  · rfl
  · rintro ⟨n, hn⟩
    have h15 : mkRat 15 2 = (15 : ℚ) / 2 := by
      rw [Rat.mkRat_eq_div]
      norm_num
    rw [h15] at hn
    have h2 : (15 : ℚ) = 2 * (n : ℚ) := by
      field_simp at hn
      linarith
    have h3 : (15 : Int) = 2 * n := by exact_mod_cast h2
    omega

/-- C7 (amended): the capacity update rejects with `InvalidCapacity` every
value whose Python `int()` conversion raises and every value whose
truncation toward zero is `≤ 0` (so 0 and -5 are rejected, but a
non-integer numeric value like 7.5 is truncated and, when the truncation is
positive, accepted); it rejects unknown department names with
`UnknownDepartment` without mutating anything; on success it returns the
old and the new (truncated) value; and it preserves strict positivity of
every stored capacity. -/
theorem C7_capacity_validation (caps : List (String × Int)) (d : String) (c : JVal)
    (hd : d ≠ "") :
    (py_int c = none →
      update_department_capacity caps (some d) (some c)
        = (caps, .error "Capacity must be a positive integer")) ∧
    (∀ n, py_int c = some n → n ≤ 0 →
      update_department_capacity caps (some d) (some c)
        = (caps, .error "Capacity must be a positive integer")) ∧
    (∀ n, py_int c = some n → 0 < n → dget caps d = none →
      update_department_capacity caps (some d) (some c)
        = (caps, .error "Department not found")) ∧
    (∀ n old, py_int c = some n → 0 < n → dget caps d = some old →
      (update_department_capacity caps (some d) (some c)).2 = .ok (old, n) ∧
      dget (update_department_capacity caps (some d) (some c)).1 d = some n) ∧
    ((∀ kv ∈ caps, 0 < kv.2) →
      ∀ kv ∈ (update_department_capacity caps (some d) (some c)).1, 0 < kv.2) := by
  refine ⟨?_, ?_, ?_, ?_, ?_⟩
  · intro hnone
    simp [update_department_capacity, hd, hnone]
  · intro n hn hle
    simp [update_department_capacity, hd, hn, hle]
  · intro n hn hpos hmiss
    simp [update_department_capacity, hd, hn, not_le.mpr hpos, hmiss]
  · intro n old hn hpos hold
    constructor
    · simp [update_department_capacity, hd, hn, not_le.mpr hpos, hold]
    · simp [update_department_capacity, hd, hn, not_le.mpr hpos, hold, dget_dset_self]
  · intro hpos kv hkv
    revert hkv
    match hn : py_int c with
    | none =>
      intro hkv
      exact hpos kv (by simpa [update_department_capacity, hd, hn] using hkv)
    | some n =>
      by_cases hle : n ≤ 0
      · intro hkv
        exact hpos kv (by simpa [update_department_capacity, hd, hn, hle] using hkv)
      · match hold : dget caps d with
        | none =>
          intro hkv
          exact hpos kv (by simpa [update_department_capacity, hd, hn, hle, hold] using hkv)
        | some old =>
          intro hkv
          have hkv2 : kv ∈ dset caps d n := by
            simpa [update_department_capacity, hd, hn, hle, hold] using hkv
          rcases mem_dset hkv2 with h2 | h2
          · rw [h2]
            exact not_le.mp hle
          · exact hpos kv h2

/-- Witness for C7: capacities 0 and -5 on a known department both fail
with `InvalidCapacity`, and capacity 7 on an unknown department fails with
`UnknownDepartment`, leaving the table unchanged. -/
theorem C7_capacity_validation_witness :
    update_department_capacity [("Cardiology", 10)] (some "Cardiology")
        (some (JVal.jnum 0))
      = ([("Cardiology", 10)], Except.error "Capacity must be a positive integer") ∧
    update_department_capacity [("Cardiology", 10)] (some "Cardiology")
        (some (JVal.jnum (-5)))
      = ([("Cardiology", 10)], Except.error "Capacity must be a positive integer") ∧
    update_department_capacity [("Cardiology", 10)] (some "Neurology")
        (some (JVal.jnum 7))
      = ([("Cardiology", 10)], Except.error "Department not found") :=
  ⟨(C7_capacity_validation [("Cardiology", 10)] "Cardiology" (JVal.jnum 0)
      (by decide)).2.1 0 (by decide) (by decide),
   (C7_capacity_validation [("Cardiology", 10)] "Cardiology" (JVal.jnum (-5))
      (by decide)).2.1 (-5) (by decide) (by decide),
   (C7_capacity_validation [("Cardiology", 10)] "Neurology" (JVal.jnum 7)
      (by decide)).2.2.1 7 (by decide) (by decide) rfl⟩

/-- C1 counterexample: from a fresh session, two single admissions carrying
the SAME patient id leave two entries in the Emergency queue but only one
entry in the registry — the claimed conservation
`sum(queue sizes) = len(registry)` fails for this Admit sequence, because
`PATIENT_REGISTRY[patient_id] = ...` overwrites while the queue appends. -/
theorem C1_conservation_counterexample :
    queue_size_sum (run_ops (fresh_state DEFAULT_DEPARTMENT_CAPACITY 0)
      [TriageOp.single (sample_input "P1") 0 true true,
       TriageOp.single (sample_input "P1") 1 true true]) = 2 ∧
    (run_ops (fresh_state DEFAULT_DEPARTMENT_CAPACITY 0)
      [TriageOp.single (sample_input "P1") 0 true true,
       TriageOp.single (sample_input "P1") 1 true true]).patient_registry.length = 1 := by
  exact ⟨by decide, by decide⟩

/-- C1 (amended): for every sequence of Admit and AdmitBatch calls starting
from a fresh session IN WHICH ALL SUPPLIED PATIENT IDS ARE PAIRWISE
DISTINCT, the sum over all departments of the queue sizes equals the number
of registry entries at every point between calls, and the registry is the
disjoint union of the queues' members (the queued patient ids are a
permutation of the registry keys, which are pairwise distinct). -/
theorem C1_conservation_distinct_ids (caps : List (String × Int)) (t : ℚ)
    (ops : List TriageOp) (hnd : (ops_pids ops).Nodup) (k : Nat) :
    queue_size_sum (run_ops (fresh_state caps t) (ops.take k)) =
      (run_ops (fresh_state caps t) (ops.take k)).patient_registry.length ∧
    List.Perm (queued_ids (run_ops (fresh_state caps t) (ops.take k)))
      (registry_ids (run_ops (fresh_state caps t) (ops.take k))) ∧
    (registry_ids (run_ops (fresh_state caps t) (ops.take k))).Nodup := by
  have h0 := fresh_state_conservation caps t
  have hfresh : ∀ x ∈ ops_pids ops, x ∉ registry_ids (fresh_state caps t) := by
    intro x _ hx
    simp [registry_ids, fresh_state] at hx
  have h := (run_ops_conservation ops (fresh_state caps t) h0 hfresh hnd).1 k
  refine ⟨?_, h.1, h.2⟩
  have hlen := h.1.length_eq
  rw [queue_size_sum_eq]
  have h2 : (queued_ids (run_ops (fresh_state caps t) (ops.take k))).length =
      (all_queued (run_ops (fresh_state caps t) (ops.take k))).length := by
    simp [queued_ids]
  rw [← h2, hlen]
  simp [registry_ids]

/-- Witness for C1 (amended): two admissions with distinct ids from a fresh
session conserve the patient count. -/
theorem C1_conservation_distinct_ids_witness :
    (ops_pids [TriageOp.single (sample_input "P1") 0 true true,
               TriageOp.single (sample_input "P2") 1 true true]).Nodup ∧
    queue_size_sum (run_ops (fresh_state DEFAULT_DEPARTMENT_CAPACITY 0)
        ([TriageOp.single (sample_input "P1") 0 true true,
          TriageOp.single (sample_input "P2") 1 true true].take 2)) =
      (run_ops (fresh_state DEFAULT_DEPARTMENT_CAPACITY 0)
        ([TriageOp.single (sample_input "P1") 0 true true,
          TriageOp.single (sample_input "P2") 1 true true].take 2)).patient_registry.length :=
  ⟨by decide,
   (C1_conservation_distinct_ids DEFAULT_DEPARTMENT_CAPACITY 0
     [TriageOp.single (sample_input "P1") 0 true true,
      TriageOp.single (sample_input "P2") 1 true true] (by decide) 2).1⟩

/-- C2: a successful admission goes to the classifier's primary department
whenever that department's queue is strictly below its configured capacity;
otherwise it goes to a department whose current queue is no longer than any
other known department's queue (chosen over the full department set,
independent of that department's own capacity); consequently, when the
primary queue size equals its capacity before the call, the assigned
department can be the primary only if the primary holds a globally minimal
queue. -/
theorem C2_overflow_routing (st : TriageState) (inp : PatientInput) (now : ℚ)
    (c m : Bool) (risk primary : String) (q : List TriagePatientRec) (cap : Int)
    (hcls : inp.classifier = some (risk, primary))
    (hq : dget st.department_queues primary = some q)
    (hcap : dget st.department_capacity primary = some cap) :
    ((q.length : Int) < cap →
      ∀ st2 res, triage_patient st inp now c m = (st2, .ok res) →
        res.assigned_department = primary) ∧
    (cap ≤ (q.length : Int) →
      ∀ st2 res, triage_patient st inp now c m = (st2, .ok res) →
        ∃ qm, (res.assigned_department, qm) ∈ st.department_queues ∧
          ∀ dq ∈ st.department_queues, qm.length ≤ dq.2.length) ∧
    ((q.length : Int) = cap →
      ∀ st2 res, triage_patient st inp now c m = (st2, .ok res) →
        res.assigned_department = primary →
        ∃ qp, (primary, qp) ∈ st.department_queues ∧
          ∀ dq ∈ st.department_queues, qp.length ≤ dq.2.length) := by
  have hshape : ∀ st2 res, triage_patient st inp now c m = (st2, .ok res) →
      res.assigned_department = load_balance st primary := by
    intro st2 res hok
    rcases triage_patient_ok_shape hok with ⟨r2, p2, hcls2, ha, _⟩
    rw [hcls] at hcls2
    injection hcls2 with hcls2
    injection hcls2 with _ hp2
    rw [ha, ← hp2]
  have hover : cap ≤ (q.length : Int) →
      ∀ st2 res, triage_patient st inp now c m = (st2, .ok res) →
        ∃ qm, (res.assigned_department, qm) ∈ st.department_queues ∧
          ∀ dq ∈ st.department_queues, qm.length ≤ dq.2.length := by
    intro hge st2 res hok
    have ha := hshape st2 res hok
    rw [load_balance_over hq hcap hge] at ha
    obtain ⟨dm, hdm⟩ := min_load_dept_isSome hq
    rw [hdm] at ha
    simp only [Option.getD_some] at ha
    rcases min_load_dept_spec hdm with ⟨qm, hmem, hmin⟩
    exact ⟨qm, by rw [ha]; exact hmem, hmin⟩
  refine ⟨?_, hover, ?_⟩
  · intro hlt st2 res hok
    rw [hshape st2 res hok, load_balance_below hq hcap hlt]
  · intro heq st2 res hok hres
    rcases hover (le_of_eq heq.symm) st2 res hok with ⟨qm, hmem, hmin⟩
    rw [hres] at hmem
    exact ⟨qm, hmem, hmin⟩

/-- A two-department state with Emergency exactly at its capacity of 1,
used to exhibit C2's overflow branch. -/
def C2_state : TriageState :=
  { department_queues :=
      [("Emergency", [TriagePatientRec.mk_at "E1" "high" "Emergency" 0]),
       ("Cardiology", [])],
    patient_registry := [("E1", TriagePatientRec.mk_at "E1" "high" "Emergency" 0)],
    department_capacity := [("Emergency", 1), ("Cardiology", 5)],
    session_id := some 0 }

/-- Witness for C2: with Emergency at capacity (1 of 1), the admission is
load-balanced onto the least-loaded known department. -/
theorem C2_overflow_routing_witness :
    ∃ qm, ("Cardiology", qm) ∈ C2_state.department_queues ∧
      ∀ dq ∈ C2_state.department_queues, qm.length ≤ dq.2.length := by
  have h := (C2_overflow_routing C2_state (sample_input "P9") 5 true true "high"
    "Emergency" [TriagePatientRec.mk_at "E1" "high" "Emergency" 0] 1
    rfl rfl rfl).2.1
  have h2 := h (by decide) (triage_patient C2_state (sample_input "P9") 5 true true).1
    { patient_id := "P9", risk_level := "high", assigned_department := "Cardiology",
      primary_department := "Emergency", load_balanced := true, queue_position := 1,
      estimated_wait_time_minutes := ((1 : Nat) : ℚ) * (5 / 2) } rfl
  exact h2

/-- A successful batch response carries one result row per input entry. -/
theorem batch_stream_ok_length (now : ℚ) (c m : Bool) :
    ∀ (inps : List PatientInput) (st st2 : TriageState) (rs : List BatchResult),
      triage_batch_stream st inps now c m = (st2, .ok rs) → rs.length = inps.length
  | [], st, st2, rs, h => by
    simp only [triage_batch_stream, Prod.mk.injEq, Except.ok.injEq] at h
    rw [← h.2]
    rfl
  | inp :: rest, st, st2, rs, h => by
    cases hb : batch_one st inp now c m with
    | mk st1 r =>
      cases r with
      | error e =>
        simp only [triage_batch_stream, hb] at h
        simp at h
      | ok r =>
        simp only [triage_batch_stream, hb] at h
        cases hr : triage_batch_stream st1 rest now c m with
        | mk st3 rs2 =>
          rw [hr] at h
          cases rs2 with
          | error e => simp at h
          | ok rs3 =>
            simp only [Prod.mk.injEq, Except.ok.injEq] at h
            rw [← h.2]
            simp [batch_stream_ok_length now c m rest st1 st3 rs3 hr]

/-- C4 counterexample: a batch [good, bad, good] from a fresh session is
aborted by the failing middle entry — the whole response is a single error
(the successful first entry is NOT reported), the first entry stays
admitted, and the third entry is never admitted. -/
theorem C4_batch_abort_counterexample :
    (triage_batch_stream (fresh_state DEFAULT_DEPARTMENT_CAPACITY 0)
        [sample_input "G1", bad_vitals_input "B1", sample_input "G2"] 0 true true).2
      = Except.error "ValueError" ∧
    dmem (triage_batch_stream (fresh_state DEFAULT_DEPARTMENT_CAPACITY 0)
        [sample_input "G1", bad_vitals_input "B1", sample_input "G2"] 0 true true).1.patient_registry
        "G1" = true ∧
    dmem (triage_batch_stream (fresh_state DEFAULT_DEPARTMENT_CAPACITY 0)
        [sample_input "G1", bad_vitals_input "B1", sample_input "G2"] 0 true true).1.patient_registry
        "G2" = false := by
  exact ⟨rfl, by decide, by decide⟩

/-- C4 (amended): the batch route applies the single-admission step to the
entries in input order ONLY UP TO THE FIRST FAILING ENTRY: a successful head
prepends its result to the outcome on the updated state; a failing head
aborts the whole batch with that error, keeping the state reached so far
(no rollback of prior entries) and returning NO per-entry results; a batch
that returns a result list processed every entry. -/
theorem C4_batch_abort_semantics (st : TriageState) (inp : PatientInput)
    (rest : List PatientInput) (now : ℚ) (c m : Bool) :
    (∀ st1 r, batch_one st inp now c m = (st1, .ok r) →
      triage_batch_stream st (inp :: rest) now c m =
        ((triage_batch_stream st1 rest now c m).1,
         Except.map (fun rs => r :: rs) (triage_batch_stream st1 rest now c m).2)) ∧
    (∀ st1 e, batch_one st inp now c m = (st1, .error e) →
      triage_batch_stream st (inp :: rest) now c m = (st, .error e)) ∧
    (∀ st2 rs, triage_batch_stream st (inp :: rest) now c m = (st2, .ok rs) →
      rs.length = rest.length + 1) := by
  refine ⟨?_, ?_, ?_⟩
  · intro st1 r hb
    simp only [triage_batch_stream, hb]
    cases hr : triage_batch_stream st1 rest now c m with
    | mk st3 rs2 => cases rs2 <;> rfl
  · intro st1 e hb
    have hse := batch_one_error_state hb
    simp only [triage_batch_stream, hb, hse]
  · intro st2 rs h
    have := batch_stream_ok_length now c m (inp :: rest) st st2 rs h
    simpa using this

/-- Witness for C4: a batch whose single entry fails its vitals cast
returns the error with the fresh state untouched. -/
theorem C4_batch_abort_semantics_witness :
    triage_batch_stream (fresh_state DEFAULT_DEPARTMENT_CAPACITY 0)
      [bad_vitals_input "B1"] 0 true true
      = (fresh_state DEFAULT_DEPARTMENT_CAPACITY 0, Except.error "ValueError") :=
  (C4_batch_abort_semantics (fresh_state DEFAULT_DEPARTMENT_CAPACITY 0)
    (bad_vitals_input "B1") [] 0 true true).2.1 _ "ValueError" rfl

theorem queue_priority_none_eq (st : TriageState) (d c : String) (now : ℚ)
    (hq : dget st.department_queues d = none) :
    queue_priority st d c now = .error "Invalid department" := by
  simp [queue_priority, hq]

theorem queue_priority_some_eq (st : TriageState) (d c : String) (now : ℚ)
    {queue : List TriagePatientRec}
    (hq : dget st.department_queues d = some queue) :
    queue_priority st d c now =
      .ok { department := d, category_filter := c,
            prioritized_queue := build_rows now 0
              (sort_desc (fun p => calculate_priority p.risk_level p.arrival_time now)
                (category_filter_fn st c queue)),
            total_in_queue := queue.length,
            filtered_count :=
              (sort_desc (fun p => calculate_priority p.risk_level p.arrival_time now)
                (category_filter_fn st c queue)).length } := by
  simp [queue_priority, hq]

theorem category_filter_map_scores (st : TriageState) (f : TriagePatientRec → ℚ)
    (c : String) (queue : List TriagePatientRec) :
    category_filter_fn (map_stored_scores st f) c
        (queue.map (fun p => set_stored_score p (f p))) =
      (category_filter_fn st c queue).map (fun p => set_stored_score p (f p)) := by
  have hdm : dmem (map_stored_scores st f).department_queues c =
      dmem st.department_queues c := by
    unfold dmem
    rw [show (map_stored_scores st f).department_queues =
        st.department_queues.map
          (fun e => (e.1, e.2.map (fun p => set_stored_score p (f p)))) from rfl,
      dget_map_values]
    cases dget st.department_queues c <;> rfl
  unfold category_filter_fn
  by_cases h1 : c = "all"
  · simp [h1]
  · rw [if_neg h1, if_neg h1]
    by_cases h2 : py_lower c = "high" ∨ py_lower c = "medium" ∨ py_lower c = "low"
    · rw [if_pos h2, if_pos h2]
      exact filter_map_pres _ _ _ (fun a => rfl) queue
    · rw [if_neg h2, if_neg h2, hdm]
      by_cases h3 : dmem st.department_queues c = true
      · rw [if_pos h3, if_pos h3]
        exact filter_map_pres _ _ _ (fun a => rfl) queue
      · rw [if_neg h3, if_neg h3]

/-- C8 counterexample: `TriagePatient.__init__` stores `priority_score` on
the entry (computed at construction), and that stored value goes stale: at
6000 s (100 minutes) after a low-risk arrival the live recomputed score is
20 while the stored field still holds 10 — so the claim that the score is
never stored on a patient entry fails. -/
theorem C8_stored_score_counterexample :
    (TriagePatientRec.mk_at "p1" "low" "Emergency" 0).priority_score = 10 ∧
    calculate_priority "low" 0 6000 = 20 ∧
    (TriagePatientRec.mk_at "p1" "low" "Emergency" 0).priority_score ≠
      calculate_priority "low" 0 6000 := by
  have h1 : (TriagePatientRec.mk_at "p1" "low" "Emergency" 0).priority_score = 10 := by
    show calculate_priority "low" 0 0 = 10
    unfold calculate_priority risk_scores
    rw [if_neg (by decide), if_neg (by decide), if_pos rfl]
    norm_num
  have h2 : calculate_priority "low" 0 6000 = 20 := by
    unfold calculate_priority risk_scores
    rw [if_neg (by decide), if_neg (by decide), if_pos rfl]
    norm_num
  refine ⟨h1, h2, ?_⟩
  rw [h1, h2]
  norm_num

/-- C8 (amended): `priority_score` IS stored on the entry at admission
(while `wait_minutes` is not stored), but every `/queue-priority` read
ignores the stored field and recomputes the score from `risk_level`,
`arrival_time` and the clock at call time: the route's entire response —
ordering, reported scores and counts — is unchanged under arbitrary
rewriting of every stored `priority_score`. -/
theorem C8_live_recomputation (st : TriageState) (f : TriagePatientRec → ℚ)
    (d c : String) (now : ℚ) :
    queue_priority (map_stored_scores st f) d c now = queue_priority st d c now := by
  have hdget : dget (map_stored_scores st f).department_queues d =
      (dget st.department_queues d).map
        (fun q => q.map (fun p => set_stored_score p (f p))) :=
    dget_map_values _ st.department_queues d
  cases hq : dget st.department_queues d with
  | none =>
    rw [queue_priority_none_eq _ _ _ _ (by rw [hdget, hq]; rfl),
      queue_priority_none_eq _ _ _ _ hq]
  | some queue =>
    rw [queue_priority_some_eq _ _ _ _ (by rw [hdget, hq]; rfl),
      queue_priority_some_eq _ _ _ _ hq]
    rw [category_filter_map_scores, sort_desc_map]
    have hkey : (fun a => (fun p : TriagePatientRec =>
        calculate_priority p.risk_level p.arrival_time now) (set_stored_score a (f a))) =
        (fun p : TriagePatientRec => calculate_priority p.risk_level p.arrival_time now) :=
      funext fun a => rfl
    rw [hkey]
    simp only [build_rows_map_invariant now (fun p => set_stored_score p (f p))
        (fun p => rfl) (fun p => rfl) (fun p => rfl),
      List.length_map]

theorem dget_isSome_of_mem_keys {α : Type} {l : List (String × α)} {k : String}
    (h : k ∈ l.map Prod.fst) : ∃ v, dget l k = some v := by
  induction l with
  | nil => simp at h
  | cons hd t ih =>
    obtain ⟨k', v'⟩ := hd
    by_cases hk : k' = k
    · exact ⟨v', by simp [dget, hk]⟩
    · rw [List.map_cons] at h
      rcases List.mem_cons.mp h with h2 | h2
      · exact absurd h2.symm hk
      · rcases ih h2 with ⟨v, hv⟩
        exact ⟨v, by simp [dget, hk, hv]⟩

/-- C9: admitting a patient id already present in the registry overwrites
the registry value under that key (registry size unchanged) while the
earlier entry stays in its queue: the total queued count grows by one and
strictly exceeds the registry size, and the admitted id now occurs at least
twice among the queued entries. -/
theorem C9_duplicate_id_overwrite (st : TriageState) (inp : PatientInput) (now : ℚ)
    (c m : Bool) (st2 : TriageState) (res : TriageResult) (risk primary : String)
    (hcls : inp.classifier = some (risk, primary))
    (hdup : inp.patient_id ∈ registry_ids st)
    (hque : inp.patient_id ∈ queued_ids st)
    (hcons : queue_size_sum st = st.patient_registry.length)
    (hok : triage_patient st inp now c m = (st2, .ok res)) :
    st2.patient_registry.length = st.patient_registry.length ∧
    dget st2.patient_registry inp.patient_id =
      some (TriagePatientRec.mk_at inp.patient_id risk (load_balance st primary) now) ∧
    queue_size_sum st2 = queue_size_sum st + 1 ∧
    st2.patient_registry.length < queue_size_sum st2 ∧
    2 ≤ (queued_ids st2).count inp.patient_id := by
  match hx : extract_features_single inp with
  | none =>
    rw [triage_patient_extract_none st now c m hx] at hok
    simp at hok
  | some fs =>
    rw [triage_patient_extract_some st now c m hx, hcls] at hok
    match hq : dget st.department_queues (load_balance st primary) with
    | none =>
      rw [classify_register_keyerr_eq st inp.patient_id risk primary now c m hq] at hok
      simp at hok
    | some q =>
      rw [classify_register_ok_eq st inp.patient_id risk primary now c m hq] at hok
      simp only [Prod.mk.injEq, Except.ok.injEq] at hok
      obtain ⟨hst2, _⟩ := hok
      subst hst2
      obtain ⟨w, hw⟩ := dget_isSome_of_mem_keys hdup
      have hperm := qjoin_dset_append
        (TriagePatientRec.mk_at inp.patient_id risk (load_balance st primary) now) hq
      have hqs2 : queue_size_sum
          { st with
            department_queues := dset st.department_queues (load_balance st primary)
              (q ++ [TriagePatientRec.mk_at inp.patient_id risk (load_balance st primary) now]),
            patient_registry := dset st.patient_registry inp.patient_id
              (TriagePatientRec.mk_at inp.patient_id risk (load_balance st primary) now) } =
          queue_size_sum st + 1 := by
        rw [queue_size_sum_eq, queue_size_sum_eq]
        have := hperm.length_eq
        simp only [all_queued_eq]
        rw [this]
        rfl
      have hreglen : (dset st.patient_registry inp.patient_id
          (TriagePatientRec.mk_at inp.patient_id risk (load_balance st primary) now)).length
          = st.patient_registry.length := length_dset hw _
      refine ⟨hreglen, dget_dset_self _ _ _, hqs2, ?_, ?_⟩
      · rw [hqs2]
        show (dset st.patient_registry inp.patient_id _).length < queue_size_sum st + 1
        rw [hreglen, ← hcons]
        omega
      · have hcnt := (hperm.map (fun p => p.patient_id)).count_eq inp.patient_id
        have hcnt2 : (queued_ids
            { st with
              department_queues := dset st.department_queues (load_balance st primary)
                (q ++ [TriagePatientRec.mk_at inp.patient_id risk (load_balance st primary) now]),
              patient_registry := dset st.patient_registry inp.patient_id
                (TriagePatientRec.mk_at inp.patient_id risk (load_balance st primary) now) }).count
              inp.patient_id =
            (queued_ids st).count inp.patient_id + 1 := by
          simp only [queued_ids, all_queued_eq] at hcnt ⊢
          rw [hcnt]
          simp [TriagePatientRec.mk_at, List.count_cons]
        rw [hcnt2]
        have : 1 ≤ (queued_ids st).count inp.patient_id :=
          List.count_pos_iff.mpr hque
        omega

/-- The state after one admission of "P1" from a fresh session. -/
def C9_first_state : TriageState :=
  (triage_patient (fresh_state DEFAULT_DEPARTMENT_CAPACITY 0)
    (sample_input "P1") 0 true true).1

/-- Witness for C9: re-admitting "P1" one minute later leaves the registry
at one entry while two queued entries now share the id. -/
theorem C9_duplicate_id_overwrite_witness :
    2 ≤ (queued_ids
        (triage_patient C9_first_state (sample_input "P1") 60 true true).1).count "P1" ∧
    (triage_patient C9_first_state (sample_input "P1") 60 true true).1.patient_registry.length
      < queue_size_sum (triage_patient C9_first_state (sample_input "P1") 60 true true).1 := by
  have h := C9_duplicate_id_overwrite C9_first_state (sample_input "P1") 60 true true
    (triage_patient C9_first_state (sample_input "P1") 60 true true).1
    { patient_id := "P1", risk_level := "high", assigned_department := "Emergency",
      primary_department := "Emergency", load_balanced := false, queue_position := 2,
      estimated_wait_time_minutes := ((2 : Nat) : ℚ) * (5 / 2) }
    "high" "Emergency" rfl (by decide) (by decide) (by decide) rfl
  exact ⟨h.2.2.2.2, h.2.2.2.1⟩

/-- C10: in every reachable state each queued entry's `department` field
names the queue holding it; consequently `/queue-priority` for department
`d` with a known department name `d' ≠ d` as category filter returns the
empty prioritized list, and with `d' = d` returns the entire queue of `d`
(as a permutation, reordered by live score). -/
theorem C10_department_field_consistency (st : TriageState) (hreach : Reachable st)
    (d dp : String) (q : List TriagePatientRec) (now : ℚ)
    (hq : dget st.department_queues d = some q) :
    (∀ dq ∈ st.department_queues, ∀ p ∈ dq.2, p.department = dq.1) ∧
    (dp ≠ "all" → py_lower dp ≠ "high" → py_lower dp ≠ "medium" →
      py_lower dp ≠ "low" → dmem st.department_queues dp = true → dp ≠ d →
      queue_priority st d dp now =
        .ok { department := d, category_filter := dp, prioritized_queue := [],
              total_in_queue := q.length, filtered_count := 0 }) ∧
    (d ≠ "all" → py_lower d ≠ "high" → py_lower d ≠ "medium" → py_lower d ≠ "low" →
      ∃ r, queue_priority st d d now = .ok r ∧
        List.Perm (r.prioritized_queue.map (fun e => e.patient_id))
          (q.map (fun p => p.patient_id)) ∧
        r.filtered_count = q.length ∧ r.total_in_queue = q.length) := by
  have hinv := reachable_dept_field hreach
  refine ⟨hinv, ?_, ?_⟩
  · intro h1 h2 h3 h4 h5 h6
    rw [queue_priority_some_eq st d dp now hq]
    have hfil : category_filter_fn st dp q = [] := by
      unfold category_filter_fn
      rw [if_neg h1, if_neg (by simp [h2, h3, h4]), if_pos h5]
      refine List.filter_eq_nil_iff.mpr ?_
      intro p hp
      have hdept := hinv (d, q) (dget_mem hq) p hp
      simp only [hdept, decide_eq_true_eq]
      exact fun e => h6 e.symm
    rw [hfil]
    rfl
  · intro h1 h2 h3 h4
    rw [queue_priority_some_eq st d d now hq]
    have hfil : category_filter_fn st d q = q := by
      unfold category_filter_fn
      rw [if_neg h1, if_neg (by simp [h2, h3, h4]),
        if_pos (by unfold dmem; rw [hq]; rfl)]
      refine List.filter_eq_self.mpr ?_
      intro p hp
      have hdept := hinv (d, q) (dget_mem hq) p hp
      simp [hdept]
    rw [hfil]
    refine ⟨_, rfl, ?_, ?_, rfl⟩
    · rw [build_rows_map_pid]
      exact (sort_desc_perm _ q).map _
    · exact (sort_desc_perm
        (fun p => calculate_priority p.risk_level p.arrival_time now) q).length_eq

/-- The reachable one-admission state used by the C10 witness. -/
def C10_state : TriageState :=
  (triage_patient (fresh_state DEFAULT_DEPARTMENT_CAPACITY 0)
    (sample_input "P1") 0 true true).1

/-- Witness for C10: in the reachable state holding one Emergency patient,
filtering the Emergency queue by the known department "Cardiology" returns
the empty list. -/
theorem C10_department_field_consistency_witness :
    queue_priority C10_state "Emergency" "Cardiology" 0 =
      .ok { department := "Emergency", category_filter := "Cardiology",
            prioritized_queue := [], total_in_queue := 1, filtered_count := 0 } := by
  have h := (C10_department_field_consistency C10_state
    (Reachable.step_single (sample_input "P1") 0 true true
      (Reachable.init DEFAULT_DEPARTMENT_CAPACITY 0))
    "Emergency" "Cardiology" [TriagePatientRec.mk_at "P1" "high" "Emergency" 0] 0
    rfl).2.1
  exact h (by decide) (by decide) (by decide) (by decide) (by decide) (by decide)
